import Mathlib

/-
Shallow embedding of the riscv-emu repository (RV64IMC emulator in Rust)
and verification of its specification claims.

Source files embedded:
  src/src/memory.rs   : Memory (byte buffer, little-endian multi-byte access)
  src/src/bus.rs      : Bus (address map at base 0x8000_0000)
  src/src/cpu/csr.rs  : Csr (4096-entry CSR bank and the csrrw.. helpers)
  src/src/cpu.rs      : Cpu (register file, pc, fetch, decode, execute)
  src/src/cpu/decode.rs : decode_compressed (16-bit parcel decoder)

Modelling conventions:
  - Rust u64 values are Nat; wrapping operations reduce mod 2 ^ 64;
    signed views (as i64 / as i32 / as i16 / as i8) go through Int.
  - A Rust index-out-of-bounds panic is modelled as Option.none (for
    Memory and Csr primitives) and as Res.panic once lifted to the Bus
    or the CSR helpers.
  - Fallible Rust functions returning Result are Except / Res.
  - Int.tdiv / Int.tmod model Rust integer division and remainder
    (truncation toward zero, remainder taking the dividend sign);
    Int division by 2 ^ k (Lean / on Int, Euclidean, which is floor
    for a positive divisor) models Rust arithmetic shift right.
-/

namespace RiscvEmu

/-- Truncation to 64 bits: models a wrapping u64 result. -/
def u64 (n : Nat) : Nat := n % 2 ^ 64

/-- Wrapping 64-bit addition (Rust u64::wrapping_add, or plus in release mode). -/
def add64 (a b : Nat) : Nat := (a + b) % 2 ^ 64

/-- Wrapping 64-bit subtraction (Rust u64 minus in release mode). -/
def sub64 (a b : Nat) : Nat := (a + (2 ^ 64 - b % 2 ^ 64)) % 2 ^ 64

/-- Wrapping 64-bit multiplication (Rust u64::wrapping_mul). -/
def mul64 (a b : Nat) : Nat := (a * b) % 2 ^ 64

/-- The bits of a (64-bit) signed integer, as a u64: models a Rust cast
to u64 of an i64 value (two's complement). -/
def u64ofInt (i : Int) : Nat := (i % (2 ^ 64 : Int)).toNat

/-- Signed view of the low 64 bits of a Nat: models a Rust cast to i64. -/
def i64ofNat (n : Nat) : Int :=
  if n % 2 ^ 64 < 2 ^ 63 then ((n % 2 ^ 64 : Nat) : Int)
  else ((n % 2 ^ 64 : Nat) : Int) - 2 ^ 64

/-- Signed view of the low 32 bits: models a Rust cast to i32. -/
def i32ofNat (n : Nat) : Int :=
  if n % 2 ^ 32 < 2 ^ 31 then ((n % 2 ^ 32 : Nat) : Int)
  else ((n % 2 ^ 32 : Nat) : Int) - 2 ^ 32

/-- Signed view of the low 16 bits: models a Rust cast to i16. -/
def i16ofNat (n : Nat) : Int :=
  if n % 2 ^ 16 < 2 ^ 15 then ((n % 2 ^ 16 : Nat) : Int)
  else ((n % 2 ^ 16 : Nat) : Int) - 2 ^ 16

/-- Signed view of the low 8 bits: models a Rust cast to i8. -/
def i8ofNat (n : Nat) : Int :=
  if n % 2 ^ 8 < 2 ^ 7 then ((n % 2 ^ 8 : Nat) : Int)
  else ((n % 2 ^ 8 : Nat) : Int) - 2 ^ 8

/-- Wrap an integer into i32 range: models Rust i32 wrapping arithmetic. -/
def wrap32 (i : Int) : Int := (i + 2 ^ 31) % 2 ^ 32 - 2 ^ 31

/-- Sign extension of the low w bits of a raw field to a signed integer.
Models the Rust idiom of shifting a field to the top of an iN and
arithmetically shifting it back down. -/
def sext (w : Nat) (x : Nat) : Int :=
  if x % 2 ^ w < 2 ^ (w - 1) then ((x % 2 ^ w : Nat) : Int)
  else ((x % 2 ^ w : Nat) : Int) - 2 ^ w

/-- Error type of src/src/types.rs (enum Exception). -/
inductive Exception where
  /-- UnknownInstruction, carrying the raw parcel. -/
  | UnknownInstruction (raw : Nat)
  /-- InvalidMemoryAccess, carrying the offending address. -/
  | InvalidMemoryAccess (addr : Nat)
  /-- InvalidCsrAccess, carrying the CSR address. -/
  | InvalidCsrAccess (addr : Nat)
deriving DecidableEq

/-- Outcome of a Rust computation that can return a value, return an
Exception through Result, or panic (index out of bounds). -/
inductive Res (α : Type) where
  | ok (a : α)
  | err (e : Exception)
  | panic
deriving DecidableEq

/-- The Instruction enum of src/src/cpu.rs (identical to the one in
src/src/instructions.rs). Register indices are Nat (Rust u8), immediates
and offsets are Int (Rust i64), shift amounts are Nat (Rust u32). -/
inductive Instruction where
  | ADD (rd rs1 rs2 : Nat)
  | SUB (rd rs1 rs2 : Nat)
  | SLL (rd rs1 rs2 : Nat)
  | SLT (rd rs1 rs2 : Nat)
  | SLTU (rd rs1 rs2 : Nat)
  | XOR (rd rs1 rs2 : Nat)
  | SRL (rd rs1 rs2 : Nat)
  | SRA (rd rs1 rs2 : Nat)
  | OR (rd rs1 rs2 : Nat)
  | AND (rd rs1 rs2 : Nat)
  | MUL (rd rs1 rs2 : Nat)
  | MULH (rd rs1 rs2 : Nat)
  | MULHSU (rd rs1 rs2 : Nat)
  | MULHU (rd rs1 rs2 : Nat)
  | DIV (rd rs1 rs2 : Nat)
  | DIVU (rd rs1 rs2 : Nat)
  | REM (rd rs1 rs2 : Nat)
  | REMU (rd rs1 rs2 : Nat)
  | ADDW (rd rs1 rs2 : Nat)
  | SUBW (rd rs1 rs2 : Nat)
  | SLLW (rd rs1 rs2 : Nat)
  | SRLW (rd rs1 rs2 : Nat)
  | SRAW (rd rs1 rs2 : Nat)
  | MULW (rd rs1 rs2 : Nat)
  | DIVW (rd rs1 rs2 : Nat)
  | DIVUW (rd rs1 rs2 : Nat)
  | REMW (rd rs1 rs2 : Nat)
  | REMUW (rd rs1 rs2 : Nat)
  | ADDI (rd rs1 : Nat) (imm : Int)
  | SLTI (rd rs1 : Nat) (imm : Int)
  | SLTIU (rd rs1 : Nat) (imm : Int)
  | XORI (rd rs1 : Nat) (imm : Int)
  | ORI (rd rs1 : Nat) (imm : Int)
  | ANDI (rd rs1 : Nat) (imm : Int)
  | SLLI (rd rs1 : Nat) (shamt : Nat)
  | SRLI (rd rs1 : Nat) (shamt : Nat)
  | SRAI (rd rs1 : Nat) (shamt : Nat)
  | ADDIW (rd rs1 : Nat) (imm : Int)
  | SLLIW (rd rs1 : Nat) (shamt : Nat)
  | SRLIW (rd rs1 : Nat) (shamt : Nat)
  | SRAIW (rd rs1 : Nat) (shamt : Nat)
  | LB (rd rs1 : Nat) (offset : Int)
  | LH (rd rs1 : Nat) (offset : Int)
  | LW (rd rs1 : Nat) (offset : Int)
  | LBU (rd rs1 : Nat) (offset : Int)
  | LHU (rd rs1 : Nat) (offset : Int)
  | LD (rd rs1 : Nat) (offset : Int)
  | LWU (rd rs1 : Nat) (offset : Int)
  | SB (rs1 rs2 : Nat) (offset : Int)
  | SH (rs1 rs2 : Nat) (offset : Int)
  | SW (rs1 rs2 : Nat) (offset : Int)
  | SD (rs1 rs2 : Nat) (offset : Int)
  | BEQ (rs1 rs2 : Nat) (offset : Int)
  | BNE (rs1 rs2 : Nat) (offset : Int)
  | BLT (rs1 rs2 : Nat) (offset : Int)
  | BGE (rs1 rs2 : Nat) (offset : Int)
  | BLTU (rs1 rs2 : Nat) (offset : Int)
  | BGEU (rs1 rs2 : Nat) (offset : Int)
  | LUI (rd : Nat) (imm : Int)
  | AUIPC (rd : Nat) (imm : Int)
  | JAL (rd : Nat) (offset : Int)
  | JALR (rd rs1 : Nat) (offset : Int)
  | EBREAK

/-- Memory of src/src/memory.rs: a byte buffer (each entry is one byte,
kept below 256 by writes). -/
structure Memory where
  data : List Nat
deriving DecidableEq

/-- The loop body of Memory::read: for i in 0..size, value is ORed with
data(addr + i) shifted left by i * 8; an out-of-range index is a Rust
panic, modelled as none. rem counts the remaining iterations
(rem = size - i). -/
def Memory.readAux (data : List Nat) (addr : Nat) : Nat → Nat → Nat → Option Nat
  | 0, _, acc => some acc
  | rem + 1, i, acc =>
    match data[addr + i]? with
    | none => none
    | some b => Memory.readAux data addr rem (i + 1) (acc ||| (b <<< (i * 8)))

/-- Memory::read(addr, size): little-endian assembly of size bytes. -/
def Memory.read (m : Memory) (addr size : Nat) : Option Nat :=
  Memory.readAux m.data addr size 0 0

/-- The loop body of Memory::write: for i in 0..size, data(addr + i) is set
to (value shifted right by i * 8) AND 0xff; an out-of-range index is a Rust
panic, modelled as none. -/
def Memory.writeAux (data : List Nat) (addr value : Nat) : Nat → Nat → Option (List Nat)
  | 0, _ => some data
  | rem + 1, i =>
    if addr + i < data.length then
      Memory.writeAux (data.set (addr + i) ((value >>> (i * 8)) &&& 0xff)) addr value rem (i + 1)
    else none

/-- Memory::write(addr, value, size): spill the low size bytes of value. -/
def Memory.write (m : Memory) (addr value size : Nat) : Option Memory :=
  (Memory.writeAux m.data addr value size 0).map Memory.mk

/-- Bus of src/src/bus.rs: owns the Memory. -/
structure Bus where
  memory : Memory
deriving DecidableEq

/-- Bus::read: addresses at or above 0x8000_0000 index Memory after
subtracting the base; lower addresses fail with InvalidMemoryAccess.
There is no upper-bound check: the Memory access itself can panic. -/
def Bus.read (b : Bus) (addr size : Nat) : Res Nat :=
  if 0x80000000 ≤ addr then
    match b.memory.read (addr - 0x80000000) size with
    | some v => .ok v
    | none => .panic
  else .err (.InvalidMemoryAccess addr)

/-- Bus::write: same address map as Bus::read. -/
def Bus.write (b : Bus) (addr value size : Nat) : Res Bus :=
  if 0x80000000 ≤ addr then
    match b.memory.write (addr - 0x80000000) value size with
    | some m => .ok { memory := m }
    | none => .panic
  else .err (.InvalidMemoryAccess addr)

/-- Csr of src/src/cpu/csr.rs: the 4096-entry array [u64; 4096], modelled
as a total function read at addresses below 4096. -/
structure Csr where
  data : Nat → Nat

/-- Csr::new: all entries zero. -/
def Csr.new : Csr := { data := fun _ => 0 }

/-- Csr::read: validates the bound against the table length 4096 and
fails closed with InvalidCsrAccess; otherwise returns the stored value. -/
def Csr.read (c : Csr) (addr : Nat) : Except Exception Nat :=
  if 4096 ≤ addr then .error (.InvalidCsrAccess addr)
  else .ok (c.data addr)

/-- Csr::write: stores unconditionally through an unchecked index, so an
address at or above 4096 is a Rust index panic (none). -/
def Csr.write (c : Csr) (addr val : Nat) : Option Csr :=
  if addr < 4096 then some { data := Function.update c.data addr val }
  else none

/-- Csr::execute_rw: read the old value (propagating the error), write the
new one, return the old. -/
def Csr.execute_rw (c : Csr) (addr val : Nat) : Res (Nat × Csr) :=
  match c.read addr with
  | .error e => .err e
  | .ok old_val =>
    match c.write addr val with
    | none => .panic
    | some c2 => .ok (old_val, c2)

/-- Csr::execute_rs: read, then write old OR val. -/
def Csr.execute_rs (c : Csr) (addr val : Nat) : Res (Nat × Csr) :=
  match c.read addr with
  | .error e => .err e
  | .ok old_val =>
    match c.write addr (old_val ||| val) with
    | none => .panic
    | some c2 => .ok (old_val, c2)

/-- Csr::execute_rc: read, then write old AND NOT val (on 64-bit values). -/
def Csr.execute_rc (c : Csr) (addr val : Nat) : Res (Nat × Csr) :=
  match c.read addr with
  | .error e => .err e
  | .ok old_val =>
    match c.write addr (old_val &&& (2 ^ 64 - 1 - val % 2 ^ 64)) with
    | none => .panic
    | some c2 => .ok (old_val, c2)

/-- Csr::execute_rwi: read, then write the zero-extended 5-bit immediate
(a u8 in the source). -/
def Csr.execute_rwi (c : Csr) (addr imm : Nat) : Res (Nat × Csr) :=
  match c.read addr with
  | .error e => .err e
  | .ok old_val =>
    match c.write addr imm with
    | none => .panic
    | some c2 => .ok (old_val, c2)

/-- Csr::execute_rsi: read, then write old OR imm. -/
def Csr.execute_rsi (c : Csr) (addr imm : Nat) : Res (Nat × Csr) :=
  match c.read addr with
  | .error e => .err e
  | .ok old_val =>
    match c.write addr (old_val ||| imm) with
    | none => .panic
    | some c2 => .ok (old_val, c2)

/-- Csr::execute_rci: read, then write old AND NOT imm. -/
def Csr.execute_rci (c : Csr) (addr imm : Nat) : Res (Nat × Csr) :=
  match c.read addr with
  | .error e => .err e
  | .ok old_val =>
    match c.write addr (old_val &&& (2 ^ 64 - 1 - imm % 2 ^ 64)) with
    | none => .panic
    | some c2 => .ok (old_val, c2)

/-- Cpu of src/src/cpu.rs: the 32-entry register array (modelled as a total
function, indexed below 32 by every decoded register field), the program
counter and the owned Bus. -/
structure Cpu where
  registers : Nat → Nat
  pc : Nat
  bus : Bus

/-- Cpu::new: zeroed registers, pc at the reset vector 0x8000_0000. -/
def Cpu.new (bus : Bus) : Cpu :=
  { registers := fun _ => 0, pc := 0x80000000, bus := bus }

/-- Cpu::read_register: index 0 is hard-wired to zero. -/
def Cpu.read_register (c : Cpu) (index : Nat) : Nat :=
  if index = 0 then 0 else c.registers index

/-- Cpu::write_register: writes to index 0 are discarded. -/
def Cpu.write_register (c : Cpu) (index value : Nat) : Cpu :=
  if index = 0 then c
  else { c with registers := Function.update c.registers index value }

/-- Cpu::fetch: read 4 bytes at pc through the Bus as a little-endian
32-bit parcel, then advance pc by 4 unconditionally (the source comment
marks compressed-instruction handling as unimplemented). -/
def Cpu.fetch (c : Cpu) : Res (Nat × Cpu) :=
  match c.bus.read c.pc 4 with
  | .ok instruction => .ok (instruction, { c with pc := add64 c.pc 4 })
  | .err e => .err e
  | .panic => .panic

/-- Cpu::decode of src/src/cpu.rs: the 32-bit decoder. Field extraction
and immediate reconstruction mirror the source; each Rust sign-extension
idiom ((x << k) >> k on a signed type) is the sext helper. -/
def Cpu.decode (instruction : Nat) : Except Exception Instruction :=
  let opcode := instruction &&& 0x7f
  let rd := (instruction >>> 7) &&& 0x1f
  let funct3 := (instruction >>> 12) &&& 0x7
  let rs1 := (instruction >>> 15) &&& 0x1f
  let rs2 := (instruction >>> 20) &&& 0x1f
  let funct7 := (instruction >>> 25) &&& 0x7f
  match opcode with
  | 0b0110011 =>
    match funct7, funct3 with
    | 0b0000000, 0b000 => .ok (.ADD rd rs1 rs2)
    | 0b0100000, 0b000 => .ok (.SUB rd rs1 rs2)
    | 0b0000000, 0b001 => .ok (.SLL rd rs1 rs2)
    | 0b0000000, 0b010 => .ok (.SLT rd rs1 rs2)
    | 0b0000000, 0b011 => .ok (.SLTU rd rs1 rs2)
    | 0b0000000, 0b100 => .ok (.XOR rd rs1 rs2)
    | 0b0000000, 0b101 => .ok (.SRL rd rs1 rs2)
    | 0b0100000, 0b101 => .ok (.SRA rd rs1 rs2)
    | 0b0000000, 0b110 => .ok (.OR rd rs1 rs2)
    | 0b0000000, 0b111 => .ok (.AND rd rs1 rs2)
    | 0b0000001, 0b000 => .ok (.MUL rd rs1 rs2)
    | 0b0000001, 0b001 => .ok (.MULH rd rs1 rs2)
    | 0b0000001, 0b010 => .ok (.MULHSU rd rs1 rs2)
    | 0b0000001, 0b011 => .ok (.MULHU rd rs1 rs2)
    | 0b0000001, 0b100 => .ok (.DIV rd rs1 rs2)
    | 0b0000001, 0b101 => .ok (.DIVU rd rs1 rs2)
    | 0b0000001, 0b110 => .ok (.REM rd rs1 rs2)
    | 0b0000001, 0b111 => .ok (.REMU rd rs1 rs2)
    | _, _ => .error (.UnknownInstruction instruction)
  | 0b0111011 =>
    match funct7, funct3 with
    | 0b0000000, 0b000 => .ok (.ADDW rd rs1 rs2)
    | 0b0100000, 0b000 => .ok (.SUBW rd rs1 rs2)
    | 0b0000000, 0b001 => .ok (.SLLW rd rs1 rs2)
    | 0b0000000, 0b101 => .ok (.SRLW rd rs1 rs2)
    | 0b0100000, 0b101 => .ok (.SRAW rd rs1 rs2)
    | 0b0000001, 0b000 => .ok (.MULW rd rs1 rs2)
    | 0b0000001, 0b100 => .ok (.DIVW rd rs1 rs2)
    | 0b0000001, 0b101 => .ok (.DIVUW rd rs1 rs2)
    | 0b0000001, 0b110 => .ok (.REMW rd rs1 rs2)
    | 0b0000001, 0b111 => .ok (.REMUW rd rs1 rs2)
    | _, _ => .error (.UnknownInstruction instruction)
  | 0b0010011 =>
    -- imm = ((instruction as i32) >> 20) as i64: bits 31:20 sign-extended
    -- from bit 11 of the field
    let immRaw := (instruction >>> 20) &&& 0xfff
    let imm := sext 12 immRaw
    let shamt := (instruction >>> 20) &&& 0b111111
    match funct3 with
    | 0b000 => .ok (.ADDI rd rs1 imm)
    | 0b010 => .ok (.SLTI rd rs1 imm)
    | 0b011 => .ok (.SLTIU rd rs1 imm)
    | 0b100 => .ok (.XORI rd rs1 imm)
    | 0b110 => .ok (.ORI rd rs1 imm)
    | 0b111 => .ok (.ANDI rd rs1 imm)
    | 0b001 => .ok (.SLLI rd rs1 shamt)
    | 0b101 =>
      -- imm & 0b10000000000 == 0: bit 10 of the 12-bit immediate field
      .ok (if immRaw &&& 0b10000000000 = 0 then .SRLI rd rs1 shamt
           else .SRAI rd rs1 shamt)
    | _ => .error (.UnknownInstruction instruction)
  | 0b0011011 =>
    let imm := sext 12 ((instruction >>> 20) &&& 0xfff)
    let shamt := (instruction >>> 20) &&& 0b11111
    match funct3 with
    | 0b000 => .ok (.ADDIW rd rs1 imm)
    | 0b001 => .ok (.SLLIW rd rs1 shamt)
    | 0b101 =>
      match funct7 with
      | 0b0000000 => .ok (.SRLIW rd rs1 shamt)
      | 0b0100000 => .ok (.SRAIW rd rs1 shamt)
      | _ => .error (.UnknownInstruction instruction)
    | _ => .error (.UnknownInstruction instruction)
  | 0b0000011 =>
    let offset := sext 12 ((instruction >>> 20) &&& 0xfff)
    match funct3 with
    | 0b000 => .ok (.LB rd rs1 offset)
    | 0b001 => .ok (.LH rd rs1 offset)
    | 0b010 => .ok (.LW rd rs1 offset)
    | 0b100 => .ok (.LBU rd rs1 offset)
    | 0b101 => .ok (.LHU rd rs1 offset)
    | 0b011 => .ok (.LD rd rs1 offset)
    | 0b110 => .ok (.LWU rd rs1 offset)
    | _ => .error (.UnknownInstruction instruction)
  | 0b0100011 =>
    let imm11_5 := (instruction >>> 25) &&& 0x7f
    let imm4_0 := (instruction >>> 7) &&& 0x1f
    let imm12 := (imm11_5 <<< 5) ||| imm4_0
    -- 12-bit sign extension: ((imm12 as i32) << 20) >> 20
    let offset := sext 12 imm12
    match funct3 with
    | 0b000 => .ok (.SB rs1 rs2 offset)
    | 0b001 => .ok (.SH rs1 rs2 offset)
    | 0b010 => .ok (.SW rs1 rs2 offset)
    | 0b011 => .ok (.SD rs1 rs2 offset)
    | _ => .error (.UnknownInstruction instruction)
  | 0b1100011 =>
    let imm12 := (instruction >>> 31) &&& 1
    let imm10_5 := (instruction >>> 25) &&& 0x3f
    let imm4_1 := (instruction >>> 8) &&& 0xf
    let imm11 := (instruction >>> 7) &&& 1
    let imm13 := (imm12 <<< 12) ||| (imm11 <<< 11) ||| (imm10_5 <<< 5) ||| (imm4_1 <<< 1)
    -- 13-bit sign extension
    let offset := sext 13 imm13
    match funct3 with
    | 0b000 => .ok (.BEQ rs1 rs2 offset)
    | 0b001 => .ok (.BNE rs1 rs2 offset)
    | 0b100 => .ok (.BLT rs1 rs2 offset)
    | 0b101 => .ok (.BGE rs1 rs2 offset)
    | 0b110 => .ok (.BLTU rs1 rs2 offset)
    | 0b111 => .ok (.BGEU rs1 rs2 offset)
    | _ => .error (.UnknownInstruction instruction)
  | 0b0110111 => .ok (.LUI rd (sext 32 (instruction &&& 0xfffff000)))
  | 0b0010111 => .ok (.AUIPC rd (sext 32 (instruction &&& 0xfffff000)))
  | 0b1101111 =>
    let imm20 := (instruction >>> 31) &&& 1
    let imm10_1 := (instruction >>> 21) &&& 0x3ff
    let imm11 := (instruction >>> 20) &&& 1
    let imm19_12 := (instruction >>> 12) &&& 0xff
    let imm21 := (imm20 <<< 20) ||| (imm19_12 <<< 12) ||| (imm11 <<< 11) ||| (imm10_1 <<< 1)
    -- 21-bit sign extension
    let offset := sext 21 imm21
    .ok (.JAL rd offset)
  | 0b1100111 =>
    let offset := sext 12 ((instruction >>> 20) &&& 0xfff)
    match funct3 with
    | 0b000 => .ok (.JALR rd rs1 offset)
    | _ => .error (.UnknownInstruction instruction)
  | 0b1110011 =>
    let imm12 := (instruction >>> 20) &&& 0xfff
    match funct3, imm12 with
    | 0b000, 0b000000000001 => .ok .EBREAK
    | _, _ => .error (.UnknownInstruction instruction)
  | _ => .error (.UnknownInstruction instruction)

/-- decode_compressed of src/src/cpu/decode.rs: the 16-bit parcel decoder.
The argument is the 16-bit parcel. The closures to_register (3-bit field
plus 8) and as_register (plain 5-bit field) are inlined as in the source;
each Rust (x << k) >> k sign-extension on an iN is the sext helper, and
the i16 arithmetic shifts whose results are immediately masked to a few
low bits are the equivalent logical shift-and-mask. -/
def decode_compressed (instruction : Nat) : Except Exception Instruction :=
  let opcode := instruction &&& 0b11
  let funct3 := (instruction >>> 13) &&& 0b111
  match opcode with
  | 0b00 =>
    match funct3 with
    | 0b000 =>
      -- C.ADDI4SPN (addi rdP, x2, nzuimm)
      let rd := ((instruction >>> 2) &&& 0b111) + 8
      if rd = 0 then .error (.UnknownInstruction instruction)
      else
        let nzuimm := ((instruction >>> 7) &&& 0b110000)
          ||| ((instruction >>> 1) &&& 0b1111000000)
          ||| ((instruction >>> 4) &&& 0b100)
          ||| ((instruction >>> 2) &&& 0b1000)
        .ok (.ADDI rd 2 (nzuimm : Int))
    | 0b010 =>
      -- C.LW (lw rdP, offset(rs1P))
      let rd := ((instruction >>> 2) &&& 0b111) + 8
      let rs1 := ((instruction >>> 7) &&& 0b111) + 8
      let uimm := ((instruction >>> 7) &&& 0b111000)
        ||| ((instruction >>> 4) &&& 0b100)
        ||| ((instruction <<< 1) &&& 0b1000000)
      .ok (.LW rd rs1 (uimm : Int))
    | 0b011 =>
      -- C.LD (ld rdP, offset(rs1P)), RV64
      let rd := ((instruction >>> 2) &&& 0b111) + 8
      let rs1 := ((instruction >>> 7) &&& 0b111) + 8
      let uimm := ((instruction >>> 7) &&& 0b111000)
        ||| ((instruction <<< 1) &&& 0b11000000)
      .ok (.LD rd rs1 (uimm : Int))
    | 0b110 =>
      -- C.SW (sw rs2P, offset(rs1P))
      let rs2 := ((instruction >>> 2) &&& 0b111) + 8
      let rs1 := ((instruction >>> 7) &&& 0b111) + 8
      let uimm := ((instruction >>> 7) &&& 0b111000)
        ||| ((instruction >>> 4) &&& 0b100)
        ||| ((instruction <<< 1) &&& 0b1000000)
      .ok (.SW rs1 rs2 (uimm : Int))
    | 0b111 =>
      -- C.SD (sd rs2P, offset(rs1P)), RV64
      let rs2 := ((instruction >>> 2) &&& 0b111) + 8
      let rs1 := ((instruction >>> 7) &&& 0b111) + 8
      let uimm := ((instruction >>> 7) &&& 0b111000)
        ||| ((instruction <<< 1) &&& 0b11000000)
      .ok (.SD rs1 rs2 (uimm : Int))
    -- C.FLD and C.FSD slots (funct3 001 and 101) and the rest are unknown
    | _ => .error (.UnknownInstruction instruction)
  | 0b01 =>
    match funct3 with
    | 0b000 =>
      -- C.NOP / C.ADDI
      let rd := (instruction >>> 7) &&& 0b11111
      let imm_val := ((instruction >>> 7) &&& 0b100000) ||| ((instruction >>> 2) &&& 0b11111)
      let nzimm := sext 6 imm_val
      if rd = 0 then .ok (.ADDI 0 0 0)
      else .ok (.ADDI rd rd nzimm)
    | 0b001 =>
      -- C.ADDIW (RV64)
      let rd := (instruction >>> 7) &&& 0b11111
      if rd = 0 then .error (.UnknownInstruction instruction)
      else
        let imm_val := ((instruction >>> 7) &&& 0b100000) ||| ((instruction >>> 2) &&& 0b11111)
        .ok (.ADDIW rd rd (sext 6 imm_val))
    | 0b010 =>
      -- C.LI (addi rd, x0, imm)
      let rd := (instruction >>> 7) &&& 0b11111
      if rd = 0 then .error (.UnknownInstruction instruction)
      else
        let imm_val := ((instruction >>> 7) &&& 0b100000) ||| ((instruction >>> 2) &&& 0b11111)
        .ok (.ADDI rd 0 (sext 6 imm_val))
    | 0b011 =>
      -- C.ADDI16SP (rd == 2) / C.LUI (otherwise)
      let rd := (instruction >>> 7) &&& 0b11111
      if rd = 2 then
        let imm_val := ((instruction >>> 3) &&& 0b1000000000)
          ||| ((instruction >>> 2) &&& 0b10000)
          ||| ((instruction <<< 1) &&& 0b1000000)
          ||| ((instruction <<< 4) &&& 0b110000000)
          ||| ((instruction <<< 3) &&& 0b100000)
        let nzimm := sext 10 imm_val
        if nzimm = 0 then .error (.UnknownInstruction instruction)
        else .ok (.ADDI 2 2 nzimm)
      else if rd ≠ 0 then
        let imm_val := ((instruction >>> 7) &&& 0b100000) ||| ((instruction >>> 2) &&& 0b11111)
        let nzimm := sext 6 imm_val
        if nzimm = 0 then .error (.UnknownInstruction instruction)
        -- nzimm << 12
        else .ok (.LUI rd (nzimm * 4096))
      else .error (.UnknownInstruction instruction)
    | 0b100 =>
      let funct2 := (instruction >>> 10) &&& 0b11
      let rd := ((instruction >>> 7) &&& 0b111) + 8
      let bit12 := (instruction >>> 12) &&& 1
      let imm_shamt := ((instruction >>> 7) &&& 0b100000) ||| ((instruction >>> 2) &&& 0b11111)
      match funct2 with
      | 0b00 =>
        -- C.SRLI
        let shamt := (bit12 <<< 5) ||| imm_shamt
        .ok (.SRLI rd rd shamt)
      | 0b01 =>
        -- C.SRAI
        let shamt := (bit12 <<< 5) ||| imm_shamt
        .ok (.SRAI rd rd shamt)
      | 0b10 =>
        -- C.ANDI: 6-bit sign extension via i8 shifts
        .ok (.ANDI rd rd (sext 6 imm_shamt))
      | 0b11 =>
        let rs2 := ((instruction >>> 2) &&& 0b111) + 8
        let op_sub := (instruction >>> 5) &&& 0b11
        match bit12, op_sub with
        | 0, 0b00 => .ok (.SUB rd rd rs2)
        | 0, 0b01 => .ok (.XOR rd rd rs2)
        | 0, 0b10 => .ok (.OR rd rd rs2)
        | 0, 0b11 => .ok (.AND rd rd rs2)
        | 1, 0b00 => .ok (.SUBW rd rd rs2)
        | 1, 0b01 => .ok (.ADDW rd rd rs2)
        | _, _ => .error (.UnknownInstruction instruction)
      | _ => .error (.UnknownInstruction instruction)
    | 0b101 =>
      -- C.J (jal x0, offset)
      let offsetRaw := ((instruction >>> 1) &&& 0b100000000000)
        ||| ((instruction >>> 7) &&& 0b10000)
        ||| ((instruction >>> 1) &&& 0b1100000000)
        ||| ((instruction <<< 2) &&& 0b10000000000)
        ||| ((instruction >>> 1) &&& 0b1000000)
        ||| ((instruction <<< 1) &&& 0b10000000)
        ||| ((instruction >>> 2) &&& 0b1110)
        ||| ((instruction <<< 3) &&& 0b100000)
      .ok (.JAL 0 (sext 12 offsetRaw))
    | 0b110 =>
      -- C.BEQZ (beq rs1P, x0, offset)
      let rs1 := ((instruction >>> 7) &&& 0b111) + 8
      let offsetRaw := ((instruction >>> 4) &&& 0b100000000)
        ||| ((instruction >>> 7) &&& 0b11000)
        ||| ((instruction <<< 1) &&& 0b11000000)
        ||| ((instruction >>> 2) &&& 0b110)
        ||| ((instruction <<< 3) &&& 0b100000)
      .ok (.BEQ rs1 0 (sext 9 offsetRaw))
    | 0b111 =>
      -- C.BNEZ (bne rs1P, x0, offset)
      let rs1 := ((instruction >>> 7) &&& 0b111) + 8
      let offsetRaw := ((instruction >>> 4) &&& 0b100000000)
        ||| ((instruction >>> 7) &&& 0b11000)
        ||| ((instruction <<< 1) &&& 0b11000000)
        ||| ((instruction >>> 2) &&& 0b110)
        ||| ((instruction <<< 3) &&& 0b100000)
      .ok (.BNE rs1 0 (sext 9 offsetRaw))
    | _ => .error (.UnknownInstruction instruction)
  | 0b10 =>
    match funct3 with
    | 0b000 =>
      -- C.SLLI
      let rd := (instruction >>> 7) &&& 0b11111
      if rd = 0 then .error (.UnknownInstruction instruction)
      else
        let shamt := ((instruction >>> 7) &&& 0b100000) ||| ((instruction >>> 2) &&& 0b11111)
        .ok (.SLLI rd rd shamt)
    | 0b010 =>
      -- C.LWSP (lw rd, offset(x2))
      let rd := (instruction >>> 7) &&& 0b11111
      if rd = 0 then .error (.UnknownInstruction instruction)
      else
        let uimm := ((instruction >>> 7) &&& 0b100000)
          ||| ((instruction >>> 2) &&& 0b11100)
          ||| ((instruction <<< 4) &&& 0b11000000)
        .ok (.LW rd 2 (uimm : Int))
    | 0b011 =>
      -- C.LDSP (ld rd, offset(x2)), RV64
      let rd := (instruction >>> 7) &&& 0b11111
      if rd = 0 then .error (.UnknownInstruction instruction)
      else
        let uimm := ((instruction >>> 7) &&& 0b100000)
          ||| ((instruction >>> 2) &&& 0b11000)
          ||| ((instruction <<< 4) &&& 0b111000000)
        .ok (.LD rd 2 (uimm : Int))
    | 0b100 =>
      let bit12 := (instruction >>> 12) &&& 1
      let rs1 := (instruction >>> 7) &&& 0b11111
      let rs2 := (instruction >>> 2) &&& 0b11111
      if bit12 = 0 then
        if rs2 = 0 then
          -- C.JR (jalr x0, rs1, 0)
          if rs1 = 0 then .error (.UnknownInstruction instruction)
          else .ok (.JALR 0 rs1 0)
        else
          -- C.MV (add rd, x0, rs2)
          if rs1 = 0 then .error (.UnknownInstruction instruction)
          else .ok (.ADD rs1 0 rs2)
      else
        if rs2 = 0 then
          if rs1 = 0 then .ok .EBREAK
          else .ok (.JALR 1 rs1 0)
        else
          -- C.ADD (add rd, rd, rs2)
          if rs1 = 0 then .error (.UnknownInstruction instruction)
          else .ok (.ADD rs1 rs1 rs2)
    | 0b110 =>
      -- C.SWSP (sw rs2, offset(x2))
      let rs2 := (instruction >>> 2) &&& 0b11111
      let uimm := ((instruction >>> 7) &&& 0b111100)
        ||| ((instruction >>> 1) &&& 0b11000000)
      .ok (.SW 2 rs2 (uimm : Int))
    | 0b111 =>
      -- C.SDSP (sd rs2, offset(x2)), RV64
      let rs2 := (instruction >>> 2) &&& 0b11111
      let uimm := ((instruction >>> 7) &&& 0b111000)
        ||| ((instruction >>> 1) &&& 0b111000000)
      .ok (.SD 2 rs2 (uimm : Int))
    -- C.FLDSP and C.FSDSP slots are unknown
    | _ => .error (.UnknownInstruction instruction)
  -- opcode 0b11 is a 32-bit instruction
  | _ => .error (.UnknownInstruction instruction)

/-- Cpu::execute of src/src/cpu.rs. Each arm mirrors the Rust semantic
body; at execute time pc has already been advanced past the instruction
by fetch, which is why branch and jump targets subtract 4 first. -/
def Cpu.execute (c : Cpu) (i : Instruction) : Res Cpu :=
  match i with
  | .ADD rd rs1 rs2 =>
    .ok (c.write_register rd (add64 (c.read_register rs1) (c.read_register rs2)))
  | .SUB rd rs1 rs2 =>
    .ok (c.write_register rd (sub64 (c.read_register rs1) (c.read_register rs2)))
  | .SLL rd rs1 rs2 =>
    -- shift amount is the low 6 bits of rs2; u64 shl drops high bits
    let shamt := c.read_register rs2 &&& 0x3f
    .ok (c.write_register rd ((c.read_register rs1 <<< shamt) % 2 ^ 64))
  | .SLT rd rs1 rs2 =>
    let val1 := i64ofNat (c.read_register rs1)
    let val2 := i64ofNat (c.read_register rs2)
    .ok (c.write_register rd (if val1 < val2 then 1 else 0))
  | .SLTU rd rs1 rs2 =>
    let val1 := c.read_register rs1
    let val2 := c.read_register rs2
    .ok (c.write_register rd (if val1 < val2 then 1 else 0))
  | .XOR rd rs1 rs2 =>
    .ok (c.write_register rd (c.read_register rs1 ^^^ c.read_register rs2))
  | .SRL rd rs1 rs2 =>
    let shamt := c.read_register rs2 &&& 0x3f
    .ok (c.write_register rd (c.read_register rs1 >>> shamt))
  | .SRA rd rs1 rs2 =>
    -- (rs1 as i64) >> shamt: arithmetic shift, i.e. floor division
    let shamt := c.read_register rs2 &&& 0x3f
    .ok (c.write_register rd (u64ofInt (i64ofNat (c.read_register rs1) / 2 ^ shamt)))
  | .OR rd rs1 rs2 =>
    .ok (c.write_register rd (c.read_register rs1 ||| c.read_register rs2))
  | .AND rd rs1 rs2 =>
    .ok (c.write_register rd (c.read_register rs1 &&& c.read_register rs2))
  | .MUL rd rs1 rs2 =>
    .ok (c.write_register rd (mul64 (c.read_register rs1) (c.read_register rs2)))
  | .MULH rd rs1 rs2 =>
    -- (rs1 as i64 as i128) * (rs2 as i64 as i128) >> 64, then as u64
    .ok (c.write_register rd
      (u64ofInt ((i64ofNat (c.read_register rs1) * i64ofNat (c.read_register rs2)) / 2 ^ 64)))
  | .MULHSU rd rs1 rs2 =>
    -- signed rs1 times unsigned rs2
    .ok (c.write_register rd
      (u64ofInt ((i64ofNat (c.read_register rs1) * ((c.read_register rs2 % 2 ^ 64 : Nat) : Int)) / 2 ^ 64)))
  | .MULHU rd rs1 rs2 =>
    .ok (c.write_register rd
      (((c.read_register rs1 % 2 ^ 64) * (c.read_register rs2 % 2 ^ 64)) / 2 ^ 64))
  | .DIV rd rs1 rs2 =>
    let dividend := i64ofNat (c.read_register rs1)
    let divisor := i64ofNat (c.read_register rs2)
    if divisor = 0 then
      -- division by zero returns u64::MAX (-1)
      .ok (c.write_register rd (2 ^ 64 - 1))
    else if dividend = -(2 ^ 63) ∧ divisor = -1 then
      -- overflow returns the dividend
      .ok (c.write_register rd (u64ofInt dividend))
    else
      .ok (c.write_register rd (u64ofInt (Int.tdiv dividend divisor)))
  | .DIVU rd rs1 rs2 =>
    let dividend := c.read_register rs1
    let divisor := c.read_register rs2
    if divisor = 0 then .ok (c.write_register rd (2 ^ 64 - 1))
    else .ok (c.write_register rd (dividend / divisor))
  | .REM rd rs1 rs2 =>
    let dividend := i64ofNat (c.read_register rs1)
    let divisor := i64ofNat (c.read_register rs2)
    if divisor = 0 then
      -- division by zero returns the dividend
      .ok (c.write_register rd (u64ofInt dividend))
    else if dividend = -(2 ^ 63) ∧ divisor = -1 then
      -- overflow returns 0
      .ok (c.write_register rd 0)
    else
      .ok (c.write_register rd (u64ofInt (Int.tmod dividend divisor)))
  | .REMU rd rs1 rs2 =>
    let dividend := c.read_register rs1
    let divisor := c.read_register rs2
    if divisor = 0 then .ok (c.write_register rd dividend)
    else .ok (c.write_register rd (dividend % divisor))
  | .ADDW rd rs1 rs2 =>
    let val1 := i32ofNat (c.read_register rs1)
    let val2 := i32ofNat (c.read_register rs2)
    -- i32 wrapping_add, then i32 -> i64 sign extension
    .ok (c.write_register rd (u64ofInt (wrap32 (val1 + val2))))
  | .SUBW rd rs1 rs2 =>
    let val1 := i32ofNat (c.read_register rs1)
    let val2 := i32ofNat (c.read_register rs2)
    .ok (c.write_register rd (u64ofInt (wrap32 (val1 - val2))))
  | .SLLW rd rs1 rs2 =>
    let val1 := c.read_register rs1 % 2 ^ 32
    let shamt := (c.read_register rs2 % 2 ^ 32) &&& 0b11111
    -- (val1 << shamt) as i32, then sign-extended
    .ok (c.write_register rd (u64ofInt (i32ofNat ((val1 <<< shamt) % 2 ^ 32))))
  | .SRLW rd rs1 rs2 =>
    let val1 := c.read_register rs1 % 2 ^ 32
    let shamt := (c.read_register rs2 % 2 ^ 32) &&& 0b11111
    -- (val1 >> shamt) as i32, then sign-extended
    .ok (c.write_register rd (u64ofInt (i32ofNat (val1 >>> shamt))))
  | .SRAW rd rs1 rs2 =>
    let val1 := i32ofNat (c.read_register rs1)
    let shamt := (c.read_register rs2 % 2 ^ 32) &&& 0b11111
    .ok (c.write_register rd (u64ofInt (val1 / 2 ^ shamt)))
  | .MULW rd rs1 rs2 =>
    let val1 := i32ofNat (c.read_register rs1)
    let val2 := i32ofNat (c.read_register rs2)
    .ok (c.write_register rd (u64ofInt (wrap32 (val1 * val2))))
  | .DIVW rd rs1 rs2 =>
    let dividend := i32ofNat (c.read_register rs1)
    let divisor := i32ofNat (c.read_register rs2)
    if divisor = 0 then
      -- u32::MAX as i64 as u64: the u32 -> i64 cast zero-extends
      .ok (c.write_register rd (2 ^ 32 - 1))
    else if dividend = -(2 ^ 31) ∧ divisor = -1 then
      -- dividend as i64 as u64: sign-extends
      .ok (c.write_register rd (u64ofInt dividend))
    else
      .ok (c.write_register rd (u64ofInt (Int.tdiv dividend divisor)))
  | .DIVUW rd rs1 rs2 =>
    let dividend := c.read_register rs1 % 2 ^ 32
    let divisor := c.read_register rs2 % 2 ^ 32
    if divisor = 0 then
      -- u32::MAX as u64: zero-extends
      .ok (c.write_register rd (2 ^ 32 - 1))
    else
      -- u32 quotient as u64: zero-extends
      .ok (c.write_register rd (dividend / divisor))
  | .REMW rd rs1 rs2 =>
    let dividend := i32ofNat (c.read_register rs1)
    let divisor := i32ofNat (c.read_register rs2)
    if divisor = 0 then
      .ok (c.write_register rd (u64ofInt dividend))
    else if dividend = -(2 ^ 31) ∧ divisor = -1 then
      .ok (c.write_register rd 0)
    else
      .ok (c.write_register rd (u64ofInt (Int.tmod dividend divisor)))
  | .REMUW rd rs1 rs2 =>
    let dividend := c.read_register rs1 % 2 ^ 32
    let divisor := c.read_register rs2 % 2 ^ 32
    if divisor = 0 then .ok (c.write_register rd dividend)
    else .ok (c.write_register rd (dividend % divisor))
  | .ADDI rd rs1 imm =>
    .ok (c.write_register rd (add64 (c.read_register rs1) (u64ofInt imm)))
  | .SLTI rd rs1 imm =>
    let val1 := i64ofNat (c.read_register rs1)
    .ok (c.write_register rd (if val1 < imm then 1 else 0))
  | .SLTIU rd rs1 imm =>
    let val1 := c.read_register rs1
    .ok (c.write_register rd (if val1 < u64ofInt imm then 1 else 0))
  | .XORI rd rs1 imm =>
    .ok (c.write_register rd (c.read_register rs1 ^^^ u64ofInt imm))
  | .ORI rd rs1 imm =>
    .ok (c.write_register rd (c.read_register rs1 ||| u64ofInt imm))
  | .ANDI rd rs1 imm =>
    .ok (c.write_register rd (c.read_register rs1 &&& u64ofInt imm))
  | .SLLI rd rs1 shamt =>
    .ok (c.write_register rd ((c.read_register rs1 <<< shamt) % 2 ^ 64))
  | .SRLI rd rs1 shamt =>
    .ok (c.write_register rd (c.read_register rs1 >>> shamt))
  | .SRAI rd rs1 shamt =>
    .ok (c.write_register rd (u64ofInt (i64ofNat (c.read_register rs1) / 2 ^ shamt)))
  | .ADDIW rd rs1 imm =>
    -- (rs1 as i32).wrapping_add(imm as i32) as u64: the i32 sum
    -- sign-extends to 64 bits
    .ok (c.write_register rd
      (u64ofInt (wrap32 (i32ofNat (c.read_register rs1) + i32ofNat (u64ofInt imm)))))
  | .SLLIW rd rs1 shamt =>
    -- (rs1 as i32) << shamt, sign-extended
    .ok (c.write_register rd (u64ofInt (i32ofNat ((c.read_register rs1 <<< shamt) % 2 ^ 32))))
  | .SRLIW rd rs1 shamt =>
    -- (rs1 as u32) >> shamt is a u32; u32 as i64 as u64 zero-extends
    .ok (c.write_register rd ((c.read_register rs1 % 2 ^ 32) >>> shamt))
  | .SRAIW rd rs1 shamt =>
    .ok (c.write_register rd (u64ofInt (i32ofNat (c.read_register rs1) / 2 ^ shamt)))
  | .LB rd rs1 offset =>
    let addr := add64 (c.read_register rs1) (u64ofInt offset)
    match c.bus.read addr 1 with
    | .ok val => .ok (c.write_register rd (u64ofInt (i8ofNat val)))
    | .err e => .err e
    | .panic => .panic
  | .LH rd rs1 offset =>
    let addr := add64 (c.read_register rs1) (u64ofInt offset)
    match c.bus.read addr 2 with
    | .ok val => .ok (c.write_register rd (u64ofInt (i16ofNat val)))
    | .err e => .err e
    | .panic => .panic
  | .LW rd rs1 offset =>
    let addr := add64 (c.read_register rs1) (u64ofInt offset)
    match c.bus.read addr 4 with
    | .ok val => .ok (c.write_register rd (u64ofInt (i32ofNat val)))
    | .err e => .err e
    | .panic => .panic
  | .LBU rd rs1 offset =>
    let addr := add64 (c.read_register rs1) (u64ofInt offset)
    match c.bus.read addr 1 with
    | .ok val => .ok (c.write_register rd val)
    | .err e => .err e
    | .panic => .panic
  | .LHU rd rs1 offset =>
    let addr := add64 (c.read_register rs1) (u64ofInt offset)
    match c.bus.read addr 2 with
    | .ok val => .ok (c.write_register rd val)
    | .err e => .err e
    | .panic => .panic
  | .LD rd rs1 offset =>
    let addr := add64 (c.read_register rs1) (u64ofInt offset)
    match c.bus.read addr 8 with
    | .ok val => .ok (c.write_register rd val)
    | .err e => .err e
    | .panic => .panic
  | .LWU rd rs1 offset =>
    let addr := add64 (c.read_register rs1) (u64ofInt offset)
    match c.bus.read addr 4 with
    | .ok val => .ok (c.write_register rd val)
    | .err e => .err e
    | .panic => .panic
  | .SB rs1 rs2 offset =>
    let addr := add64 (c.read_register rs1) (u64ofInt offset)
    match c.bus.write addr (c.read_register rs2) 1 with
    | .ok b => .ok { c with bus := b }
    | .err e => .err e
    | .panic => .panic
  | .SH rs1 rs2 offset =>
    let addr := add64 (c.read_register rs1) (u64ofInt offset)
    match c.bus.write addr (c.read_register rs2) 2 with
    | .ok b => .ok { c with bus := b }
    | .err e => .err e
    | .panic => .panic
  | .SW rs1 rs2 offset =>
    let addr := add64 (c.read_register rs1) (u64ofInt offset)
    match c.bus.write addr (c.read_register rs2) 4 with
    | .ok b => .ok { c with bus := b }
    | .err e => .err e
    | .panic => .panic
  | .SD rs1 rs2 offset =>
    let addr := add64 (c.read_register rs1) (u64ofInt offset)
    match c.bus.write addr (c.read_register rs2) 8 with
    | .ok b => .ok { c with bus := b }
    | .err e => .err e
    | .panic => .panic
  | .BEQ rs1 rs2 offset =>
    -- target is (pc - 4) + offset since fetch already advanced pc
    if c.read_register rs1 = c.read_register rs2 then
      .ok { c with pc := add64 (sub64 c.pc 4) (u64ofInt offset) }
    else .ok c
  | .BNE rs1 rs2 offset =>
    if c.read_register rs1 ≠ c.read_register rs2 then
      .ok { c with pc := add64 (sub64 c.pc 4) (u64ofInt offset) }
    else .ok c
  | .BLT rs1 rs2 offset =>
    if i64ofNat (c.read_register rs1) < i64ofNat (c.read_register rs2) then
      .ok { c with pc := add64 (sub64 c.pc 4) (u64ofInt offset) }
    else .ok c
  | .BGE rs1 rs2 offset =>
    if i64ofNat (c.read_register rs1) ≥ i64ofNat (c.read_register rs2) then
      .ok { c with pc := add64 (sub64 c.pc 4) (u64ofInt offset) }
    else .ok c
  | .BLTU rs1 rs2 offset =>
    if c.read_register rs1 < c.read_register rs2 then
      .ok { c with pc := add64 (sub64 c.pc 4) (u64ofInt offset) }
    else .ok c
  | .BGEU rs1 rs2 offset =>
    if c.read_register rs1 ≥ c.read_register rs2 then
      .ok { c with pc := add64 (sub64 c.pc 4) (u64ofInt offset) }
    else .ok c
  | .LUI rd imm =>
    .ok (c.write_register rd (u64ofInt imm))
  | .AUIPC rd imm =>
    .ok (c.write_register rd (add64 (sub64 c.pc 4) (u64ofInt imm)))
  | .JAL rd offset =>
    -- the link value is the already-advanced pc (the return address)
    let c1 := c.write_register rd c.pc
    .ok { c1 with pc := add64 (sub64 c1.pc 4) (u64ofInt offset) }
  | .JALR rd rs1 offset =>
    let t := c.pc
    -- (rs1 + offset) with the lowest bit cleared
    let target := (add64 (c.read_register rs1) (u64ofInt offset)) &&& 0xfffffffffffffffe
    .ok (Cpu.write_register { c with pc := target } rd t)
  | .EBREAK => .ok c

/-- One fetch-decode-execute cycle, as driven by the loop in
src/src/main.rs: fetch the parcel, decode it with the 32-bit decoder,
then execute. Any error short-circuits the cycle. -/
def Cpu.cycle (c : Cpu) : Res Cpu :=
  match c.fetch with
  | .ok (instruction, c1) =>
    match Cpu.decode instruction with
    | .ok i => c1.execute i
    | .error e => .err e
  | .err e => .err e
  | .panic => .panic

/-- Observer: the pc of a successful outcome (0 for err or panic). -/
def Res.pcOf (r : Res Cpu) : Nat :=
  match r with
  | .ok c => c.pc
  | _ => 0

/-- Observer: a register of a successful outcome (0 for err or panic). -/
def Res.regOf (r : Res Cpu) (i : Nat) : Nat :=
  match r with
  | .ok c => c.read_register i
  | _ => 0

/-- A Bus over an empty Memory, for fixtures whose instruction does not
touch memory. -/
def busEmpty : Bus := ⟨⟨[]⟩⟩

/-- Fixture: x2 holds 5 and x3 holds 0 (a zero divisor). -/
def cpuDivZero : Cpu :=
  { registers := fun i => if i = 2 then 5 else 0, pc := 0x80000000, bus := busEmpty }

/-- Fixture: x2 holds 0x8000_0000, a 32-bit value with bit 31 set. -/
def cpuShift : Cpu :=
  { registers := fun i => if i = 2 then 0x80000000 else 0, pc := 0x80000000, bus := busEmpty }

/-- Fixture: a fresh hart over a memory whose first parcel is the
compressed C.NOP parcel 0x0001 (low two bits 01, not 0b11). -/
def cpuCompressed : Cpu := Cpu.new ⟨⟨[1, 0, 0, 0]⟩⟩

/-- Fixture: every register holds 0x8000_0101 (an odd value, so the JALR
low-bit clearing is visible), pc is 0x8000_0010. -/
def cpuLink : Cpu :=
  { registers := fun _ => 0x80000101, pc := 0x80000010, bus := busEmpty }

/-- C1: the hart never routes a low-bits-not-0b11 parcel to the
compressed decoder. On a memory holding the compressed parcel 0x0001
(C.NOP), fetch reads the full 32-bit word and advances pc by 4, the
32-bit decoder rejects the word, and the cycle fails with
UnknownInstruction - although decode_compressed would decode that very
parcel to ADDI x0, x0, 0, and its low two bits are not 0b11. -/
theorem c1_compressed_parcel_not_dispatched :
    (1 &&& 0b11) ≠ 0b11 ∧
    Cpu.fetch cpuCompressed = .ok (1, { cpuCompressed with pc := 0x80000004 }) ∧
    Cpu.cycle cpuCompressed = .err (.UnknownInstruction 1) ∧
    decode_compressed 1 = .ok (.ADDI 0 0 0) :=
  ⟨by decide, rfl, rfl, rfl⟩

/-- C3: DIVW and DIVUW with divisor 0 write the zero-extended 32-bit
all-ones value 0xFFFF_FFFF, not the 64-bit all-ones value the claim
(and the RISC-V ISA manual) require: the u32 result is cast through
u32-to-i64 (or u32-to-u64), both of which zero-extend. -/
theorem c3_divw_by_zero_not_all_ones :
    Res.regOf (Cpu.execute cpuDivZero (.DIVW 1 2 3)) 1 = 4294967295 ∧
    Res.regOf (Cpu.execute cpuDivZero (.DIVUW 4 2 3)) 4 = 4294967295 ∧
    (4294967295 : Nat) ≠ 2 ^ 64 - 1 := by
  refine ⟨by decide, by decide, by decide⟩

/-- C4: SRLIW does not sign-extend its 32-bit result: shifting
0x8000_0000 right by 0 writes 0x0000_0000_8000_0000, whose bits 63:32
are zero although bit 31 is set (the u32 value is cast u32-to-i64,
which zero-extends). The claim requires 0xFFFF_FFFF_8000_0000. -/
theorem c4_srliw_not_sign_extended :
    Res.regOf (Cpu.execute cpuShift (.SRLIW 1 2 0)) 1 = 0x80000000 ∧
    (0x80000000 : Nat) ≠ 0xffffffff80000000 := by
  refine ⟨by decide, by decide⟩

/-- C7: decode_compressed accepts the C.ADDI4SPN parcel 0x0000 whose
nzuimm is 0 and decodes it to ADDI x8, x2, 0 instead of failing with
UnknownInstruction: the guard in the source tests the already-remapped
rd (always at least 8) instead of nzuimm, so it never fires. -/
theorem c7_addi4spn_zero_nzuimm_accepted :
    decode_compressed 0 = .ok (.ADDI 8 2 0) := rfl

/-- C10: executing JALR with rd = rs1 computes the jump target from the
value rs1 held before the link write: the final pc is (old rs1 + offset)
with the lowest bit cleared, and (for a real register) rd afterwards
holds the link value, the pc at execute entry. -/
theorem c10_jalr_link (c : Cpu) (rd : Nat) (off : Int) :
    Res.pcOf (c.execute (.JALR rd rd off)) =
      (add64 (c.read_register rd) (u64ofInt off)) &&& 0xfffffffffffffffe ∧
    (rd ≠ 0 → Res.regOf (c.execute (.JALR rd rd off)) rd = c.pc) := by
  constructor
  · simp only [Cpu.execute, Res.pcOf, Cpu.write_register]
    split <;> rfl
  · intro h
    simp [Cpu.execute, Res.regOf, Cpu.write_register, Cpu.read_register, h]

/-- C10 witness: the theorem applied at rd = rs1 = 5, offset 3, on a
state whose registers all hold the odd value 0x8000_0101. -/
theorem c10_jalr_link_witness :
    Res.pcOf (cpuLink.execute (.JALR 5 5 3)) =
      (add64 (cpuLink.read_register 5) (u64ofInt 3)) &&& 0xfffffffffffffffe ∧
    Res.regOf (cpuLink.execute (.JALR 5 5 3)) 5 = cpuLink.pc :=
  ⟨(c10_jalr_link cpuLink 5 3).1, (c10_jalr_link cpuLink 5 3).2 (by decide)⟩

/-- C6 counterexample: Csr::write at address 4096 (one past the table)
stores through an unchecked index and panics (modelled none) instead of
failing with InvalidCsrAccess, so not every CSR operation is total. -/
theorem c6_write_out_of_range_panics :
    Csr.write Csr.new 4096 0 = none := rfl

/-- C6 amended: Csr::read and the six csrr helpers are total - they
return a value exactly for addresses below 4096 and fail with
InvalidCsrAccess carrying the address exactly for addresses at or
above 4096, and never panic; Csr::write alone is partial: it succeeds
exactly below 4096 and panics (none) otherwise. -/
theorem c6_csr_totality_characterization (c : Csr) (addr val imm : Nat) :
    ((∃ v, c.read addr = .ok v) ↔ addr < 4096) ∧
    (c.read addr = .error (.InvalidCsrAccess addr) ↔ 4096 ≤ addr) ∧
    ((∃ c2, c.write addr val = some c2) ↔ addr < 4096) ∧
    ((∃ r, c.execute_rw addr val = .ok r) ↔ addr < 4096) ∧
    (c.execute_rw addr val = .err (.InvalidCsrAccess addr) ↔ 4096 ≤ addr) ∧
    c.execute_rw addr val ≠ .panic ∧
    ((∃ r, c.execute_rs addr val = .ok r) ↔ addr < 4096) ∧
    (c.execute_rs addr val = .err (.InvalidCsrAccess addr) ↔ 4096 ≤ addr) ∧
    c.execute_rs addr val ≠ .panic ∧
    ((∃ r, c.execute_rc addr val = .ok r) ↔ addr < 4096) ∧
    (c.execute_rc addr val = .err (.InvalidCsrAccess addr) ↔ 4096 ≤ addr) ∧
    c.execute_rc addr val ≠ .panic ∧
    ((∃ r, c.execute_rwi addr imm = .ok r) ↔ addr < 4096) ∧
    (c.execute_rwi addr imm = .err (.InvalidCsrAccess addr) ↔ 4096 ≤ addr) ∧
    c.execute_rwi addr imm ≠ .panic ∧
    ((∃ r, c.execute_rsi addr imm = .ok r) ↔ addr < 4096) ∧
    (c.execute_rsi addr imm = .err (.InvalidCsrAccess addr) ↔ 4096 ≤ addr) ∧
    c.execute_rsi addr imm ≠ .panic ∧
    ((∃ r, c.execute_rci addr imm = .ok r) ↔ addr < 4096) ∧
    (c.execute_rci addr imm = .err (.InvalidCsrAccess addr) ↔ 4096 ≤ addr) ∧
    c.execute_rci addr imm ≠ .panic := by
  by_cases h : addr < 4096
  · simp [Csr.read, Csr.write, Csr.execute_rw, Csr.execute_rs, Csr.execute_rc,
      Csr.execute_rwi, Csr.execute_rsi, Csr.execute_rci, h, Nat.not_le.mpr h]
  · have h4 : 4096 ≤ addr := Nat.not_lt.mp h
    simp [Csr.read, Csr.write, Csr.execute_rw, Csr.execute_rs, Csr.execute_rc,
      Csr.execute_rwi, Csr.execute_rsi, Csr.execute_rci, h, h4]

/-- Sequential application of a list of Csr::write calls; none if any
write panics. -/
def Csr.applyWrites (c : Csr) : List (Nat × Nat) → Option Csr
  | [] => some c
  | (a, v) :: ws =>
    match c.write a v with
    | none => none
    | some c2 => Csr.applyWrites c2 ws

/-- The value the last write to address a left behind, d if none did. -/
def lastWriteVal (ws : List (Nat × Nat)) (a d : Nat) : Nat :=
  ws.foldl (fun acc p => if p.1 = a then p.2 else acc) d

/-- After any in-range write sequence, reading address a returns the
last value written to a (or the start value of that cell). -/
theorem csr_applyWrites_read (ws : List (Nat × Nat)) :
    ∀ (c : Csr) (a : Nat), a < 4096 → (∀ p ∈ ws, p.1 < 4096) →
    ∃ c2, Csr.applyWrites c ws = some c2 ∧
      c2.read a = .ok (lastWriteVal ws a (c.data a)) := by
  induction ws with
  | nil =>
    intro c a ha _
    exact ⟨c, rfl, by simp [Csr.read, lastWriteVal, Nat.not_le.mpr ha]⟩
  | cons p ws ih =>
    intro c a ha hws
    have hb : p.1 < 4096 := hws p (List.mem_cons_self p ws)
    have hstep : c.write p.1 p.2 = some { data := Function.update c.data p.1 p.2 } := by
      simp [Csr.write, hb]
    obtain ⟨c2, happ, hread⟩ :=
      ih { data := Function.update c.data p.1 p.2 } a ha
        (fun q hq => hws q (List.mem_cons_of_mem p hq))
    refine ⟨c2, ?_, ?_⟩
    · obtain ⟨pa, pv⟩ := p
      simp only [Csr.applyWrites]
      rw [hstep]
      exact happ
    · rw [hread]
      obtain ⟨pa, pv⟩ := p
      have hupd : Function.update c.data pa pv a = if pa = a then pv else c.data a := by
        by_cases hpa : pa = a
        · subst hpa; simp
        · simp [Function.update_noteq (Ne.symm hpa), hpa]
      simp [lastWriteVal, hupd]

/-- C5 amended: every CSR address below 4096 - including mhartid 0xF14
and misa 0x301 - is plain storage: after any sequence of in-range
writes, a read returns the value of the last write to that address
(initially 0). There is no pinned mhartid or misa semantics. -/
theorem c5_csr_plain_storage (ws : List (Nat × Nat)) (a : Nat)
    (ha : a < 4096) (hws : ∀ p ∈ ws, p.1 < 4096) :
    ∃ c2, Csr.applyWrites Csr.new ws = some c2 ∧
      c2.read a = .ok (lastWriteVal ws a 0) :=
  csr_applyWrites_read ws Csr.new a ha hws

/-- C5 witness: the theorem applied at the single write (0xF14, 5),
read back at 0xF14. -/
theorem c5_csr_plain_storage_witness :
    ∃ c2, Csr.applyWrites Csr.new [(0xF14, 5)] = some c2 ∧
      c2.read 0xF14 = .ok (lastWriteVal [(0xF14, 5)] 0xF14 0) :=
  c5_csr_plain_storage [(0xF14, 5)] 0xF14 (by decide) (by decide)

/-- C5 counterexample: writing 1 to mhartid (0xF14) is observable - the
next read returns 1, not 0 - and a fresh misa (0x301) reads 0, which
encodes neither XLEN=64 nor any extension bit. -/
theorem c5_mhartid_pinned_refuted :
    (match Csr.write Csr.new 0xF14 1 with
     | some c2 => Csr.read c2 0xF14
     | none => .error (.InvalidCsrAccess 0)) = .ok 1 ∧
    Csr.read Csr.new 0x301 = .ok 0 :=
  ⟨rfl, rfl⟩

/-- Disjoint OR is addition: ORing a value below 2 ^ k with a value
shifted left by k bits concatenates them. -/
theorem lor_shiftLeft_of_lt {a b k : Nat} (h : a < 2 ^ k) :
    a ||| (b <<< k) = 2 ^ k * b + a := by
  apply Nat.eq_of_testBit_eq
  intro j
  rw [Nat.testBit_lor, Nat.testBit_shiftLeft, Nat.testBit_mul_pow_two_add b h j]
  by_cases hj : j < k
  · have hge : ¬(j ≥ k) := by omega
    simp [hj, hge]
  · have hk : k ≤ j := Nat.not_lt.mp hj
    have ha : a.testBit j = false :=
      Nat.testBit_lt_two_pow (lt_of_lt_of_le h (Nat.pow_le_pow_right (by norm_num) hk))
    simp [hj, hk, ha]

/-- Splitting a remainder at a byte (or any bit) boundary. -/
theorem mod_pow_split (v k m : Nat) :
    v % 2 ^ k + 2 ^ k * ((v / 2 ^ k) % 2 ^ m) = v % 2 ^ (k + m) := by
  rw [pow_add, Nat.mod_mul]

/-- The read loop, run over a region that holds the little-endian bytes
of v, accumulates v modulo the width read so far. -/
theorem Memory.readAux_spec (data : List Nat) (addr v : Nat) :
    ∀ (rem i acc : Nat),
      (∀ j, j < rem → data[addr + (i + j)]? = some ((v >>> ((i + j) * 8)) &&& 0xff)) →
      acc < 2 ^ (i * 8) →
      Memory.readAux data addr rem i acc
        = some (acc + 2 ^ (i * 8) * ((v >>> (i * 8)) % 2 ^ (rem * 8))) := by
  intro rem
  induction rem with
  | zero =>
    intro i acc _ _
    simp [Memory.readAux, Nat.mod_one]
  | succ rem ih =>
    intro i acc hbytes hacc
    have hb0 := hbytes 0 (Nat.succ_pos rem)
    simp only [Nat.add_zero] at hb0
    simp only [Memory.readAux, hb0]
    have hmask : (v >>> (i * 8)) &&& 0xff = (v >>> (i * 8)) % 2 ^ 8 := by
      have h255 : (0xff : Nat) = 2 ^ 8 - 1 := rfl
      rw [h255, Nat.and_pow_two_sub_one_eq_mod]
    have hblt : (v >>> (i * 8)) &&& 0xff < 2 ^ 8 := by
      rw [hmask]; exact Nat.mod_lt _ (by norm_num)
    have hacc2 : acc ||| (((v >>> (i * 8)) &&& 0xff) <<< (i * 8))
        = 2 ^ (i * 8) * ((v >>> (i * 8)) &&& 0xff) + acc := lor_shiftLeft_of_lt hacc
    have hnext : acc ||| (((v >>> (i * 8)) &&& 0xff) <<< (i * 8)) < 2 ^ ((i + 1) * 8) := by
      rw [hacc2]
      calc 2 ^ (i * 8) * ((v >>> (i * 8)) &&& 0xff) + acc
          < 2 ^ (i * 8) * ((v >>> (i * 8)) &&& 0xff) + 2 ^ (i * 8) := by omega
        _ = 2 ^ (i * 8) * (((v >>> (i * 8)) &&& 0xff) + 1) := by ring
        _ ≤ 2 ^ (i * 8) * 2 ^ 8 := by
            have : ((v >>> (i * 8)) &&& 0xff) + 1 ≤ 2 ^ 8 := hblt
            exact Nat.mul_le_mul_left _ this
        _ = 2 ^ ((i + 1) * 8) := by ring
    have hbytes2 : ∀ j, j < rem →
        data[addr + ((i + 1) + j)]? = some ((v >>> (((i + 1) + j) * 8)) &&& 0xff) := by
      intro j hj
      have hidx : (i + 1) + j = i + (j + 1) := by omega
      rw [hidx]
      exact hbytes (j + 1) (by omega)
    rw [ih (i + 1) _ hbytes2 hnext]
    congr 1
    rw [hacc2, hmask]
    have hshift : v >>> ((i + 1) * 8) = (v >>> (i * 8)) / 2 ^ 8 := by
      rw [Nat.shiftRight_eq_div_pow, Nat.shiftRight_eq_div_pow, Nat.div_div_eq_div_mul]
      congr 1
      ring
    rw [hshift]
    have hsplit := mod_pow_split (v >>> (i * 8)) 8 (rem * 8)
    have hpow : 2 ^ ((i + 1) * 8) = 2 ^ (i * 8) * 2 ^ 8 := by ring
    have hpow2 : (rem + 1) * 8 = 8 + rem * 8 := by ring
    rw [hpow, hpow2, ← hsplit]
    ring

/-- The write loop succeeds over an in-bounds span, preserves the length,
stores the little-endian bytes of the value over the span, and leaves
everything outside the span unchanged. -/
theorem Memory.writeAux_spec (addr v : Nat) :
    ∀ (rem : Nat) (data : List Nat) (i : Nat),
      (∀ j, j < rem → addr + (i + j) < data.length) →
      ∃ d2, Memory.writeAux data addr v rem i = some d2 ∧
        d2.length = data.length ∧
        (∀ j, j < rem → d2[addr + (i + j)]? = some ((v >>> ((i + j) * 8)) &&& 0xff)) ∧
        (∀ k, (k < addr + i ∨ addr + i + rem ≤ k) → d2[k]? = data[k]?) := by
  intro rem
  induction rem with
  | zero =>
    intro data i _
    exact ⟨data, rfl, rfl, fun j hj => absurd hj (Nat.not_lt_zero j), fun k _ => rfl⟩
  | succ rem ih =>
    intro data i h
    have hi : addr + i < data.length := by
      have := h 0 (Nat.succ_pos rem)
      omega
    simp only [Memory.writeAux, if_pos hi]
    obtain ⟨d2, heq, hlen, hw, hframe⟩ :=
      ih (data.set (addr + i) ((v >>> (i * 8)) &&& 0xff)) (i + 1) (fun j hj => by
        rw [List.length_set]
        have := h (j + 1) (by omega)
        omega)
    refine ⟨d2, heq, by rw [hlen, List.length_set], ?_, ?_⟩
    · intro j hj
      cases j with
      | zero =>
        simp only [Nat.add_zero]
        have hf : d2[addr + i]? = (data.set (addr + i) ((v >>> (i * 8)) &&& 0xff))[addr + i]? :=
          hframe (addr + i) (by omega)
        rw [hf]
        exact List.getElem?_set_self (by rw [List.length_set] at *; exact hi)
      | succ j =>
        have hidx : i + (j + 1) = (i + 1) + j := by omega
        rw [hidx]
        exact hw j (by omega)
    · intro k hk
      have hk2 : k < addr + (i + 1) ∨ addr + (i + 1) + rem ≤ k := by omega
      rw [hframe k hk2]
      have hne : addr + i ≠ k := by omega
      exact List.getElem?_set_ne hne

/-- C9: on an in-bounds span at or above the base, a Bus write followed
by a Bus read of the same address and size succeeds and returns the
value reduced modulo 2 ^ (8 * size), assembled little-endian. -/
theorem c9_write_read_roundtrip (b : Bus) (addr v size : Nat)
    (hbase : 0x80000000 ≤ addr)
    (hspan : addr - 0x80000000 + size ≤ b.memory.data.length) :
    ∃ b2, Bus.write b addr v size = .ok b2 ∧
      Bus.read b2 addr size = .ok (v % 2 ^ (8 * size)) := by
  obtain ⟨d2, heq, hlen, hw, _⟩ :=
    Memory.writeAux_spec (addr - 0x80000000) v size b.memory.data 0 (fun j hj => by omega)
  refine ⟨{ memory := ⟨d2⟩ }, ?_, ?_⟩
  · simp [Bus.write, if_pos hbase, Memory.write, heq]
  · simp only [Bus.read, if_pos hbase, Memory.read]
    have hread := Memory.readAux_spec d2 (addr - 0x80000000) v size 0 0
      (fun j hj => by simpa using hw j hj) (by norm_num)
    rw [hread]
    simp [Nat.mul_comm]

/-- Fixture: a Bus over an 8-byte memory. -/
def busEight : Bus := ⟨⟨[0, 0, 0, 0, 0, 0, 0, 0]⟩⟩

/-- C9 witness: the theorem applied at the base address, size 8 and an
8-byte value on an 8-byte memory. -/
theorem c9_write_read_roundtrip_witness :
    ∃ b2, Bus.write busEight 0x80000000 0x0123456789abcdef 8 = .ok b2 ∧
      Bus.read b2 0x80000000 8 = .ok (0x0123456789abcdef % 2 ^ (8 * 8)) :=
  c9_write_read_roundtrip busEight 0x80000000 0x0123456789abcdef 8 (by decide) (by decide)

/-- The read loop returns a value exactly when every index of the span
is inside the buffer. -/
theorem Memory.readAux_some_iff (data : List Nat) (addr : Nat) :
    ∀ (rem i acc : Nat),
      (∃ w, Memory.readAux data addr rem i acc = some w) ↔
      (∀ j, j < rem → addr + (i + j) < data.length) := by
  intro rem
  induction rem with
  | zero =>
    intro i acc
    simp [Memory.readAux]
  | succ rem ih =>
    intro i acc
    cases hg : data[addr + i]? with
    | none =>
      simp only [Memory.readAux, hg]
      constructor
      · rintro ⟨w, hw⟩
        cases hw
      · intro hall
        have h0 := hall 0 (Nat.succ_pos rem)
        have := List.getElem?_eq_none_iff.mp hg
        omega
    | some byte =>
      simp only [Memory.readAux, hg]
      rw [ih (i + 1) (acc ||| byte <<< (i * 8))]
      have hlt : addr + i < data.length := by
        obtain ⟨h, _⟩ := List.getElem?_eq_some_iff.mp hg
        exact h
      constructor
      · intro hall j hj
        cases j with
        | zero => simpa using hlt
        | succ j =>
          have hidx : i + (j + 1) = (i + 1) + j := by omega
          rw [hidx]
          exact hall j (by omega)
      · intro hall j hj
        have hidx : (i + 1) + j = i + (j + 1) := by omega
        rw [hidx]
        exact hall (j + 1) (by omega)

/-- The write loop returns a buffer exactly when every index of the span
is inside the buffer. -/
theorem Memory.writeAux_some_iff (addr v : Nat) :
    ∀ (rem : Nat) (data : List Nat) (i : Nat),
      (∃ d2, Memory.writeAux data addr v rem i = some d2) ↔
      (∀ j, j < rem → addr + (i + j) < data.length) := by
  intro rem
  induction rem with
  | zero =>
    intro data i
    simp [Memory.writeAux]
  | succ rem ih =>
    intro data i
    by_cases hi : addr + i < data.length
    · simp only [Memory.writeAux, if_pos hi]
      rw [ih (data.set (addr + i) ((v >>> (i * 8)) &&& 0xff)) (i + 1)]
      rw [List.length_set]
      constructor
      · intro hall j hj
        cases j with
        | zero => simpa using hi
        | succ j =>
          have hidx : i + (j + 1) = (i + 1) + j := by omega
          rw [hidx]
          exact hall j (by omega)
      · intro hall j hj
        have hidx : (i + 1) + j = i + (j + 1) := by omega
        rw [hidx]
        exact hall (j + 1) (by omega)
    · simp only [Memory.writeAux, if_neg hi]
      constructor
      · rintro ⟨d2, hd⟩
        cases hd
      · intro hall
        have := hall 0 (Nat.succ_pos rem)
        omega

/-- C2 amended: a Bus access fails with InvalidMemoryAccess(addr)
exactly when addr is below the base 0x8000_0000; it succeeds exactly
when addr is at or above the base and the whole span is inside Memory;
and when addr is at or above the base but the span runs outside the
buffer, the access panics on the Memory index (it does not return an
error). -/
theorem c2_bus_access_characterization (b : Bus) (addr v size : Nat) :
    (Bus.read b addr size = .err (.InvalidMemoryAccess addr) ↔ addr < 0x80000000) ∧
    (Bus.write b addr v size = .err (.InvalidMemoryAccess addr) ↔ addr < 0x80000000) ∧
    ((∃ w, Bus.read b addr size = .ok w) ↔
      (0x80000000 ≤ addr ∧ ∀ j, j < size → addr - 0x80000000 + j < b.memory.data.length)) ∧
    ((∃ b2, Bus.write b addr v size = .ok b2) ↔
      (0x80000000 ≤ addr ∧ ∀ j, j < size → addr - 0x80000000 + j < b.memory.data.length)) ∧
    (Bus.read b addr size = .panic ↔
      (0x80000000 ≤ addr ∧ ¬ ∀ j, j < size → addr - 0x80000000 + j < b.memory.data.length)) ∧
    (Bus.write b addr v size = .panic ↔
      (0x80000000 ≤ addr ∧ ¬ ∀ j, j < size → addr - 0x80000000 + j < b.memory.data.length)) := by
  by_cases hb : 0x80000000 ≤ addr
  · have hnot : ¬ addr < 0x80000000 := by omega
    cases hr : b.memory.read (addr - 0x80000000) size with
    | none =>
      have hspan : ¬ ∀ j, j < size → addr - 0x80000000 + j < b.memory.data.length := by
        intro hall
        obtain ⟨w, hw⟩ :=
          (Memory.readAux_some_iff b.memory.data (addr - 0x80000000) size 0 0).mpr
            (fun j hj => by have := hall j hj; omega)
        rw [Memory.read] at hr
        rw [hw] at hr
        cases hr
      have hw2 : Memory.writeAux b.memory.data (addr - 0x80000000) v size 0 = none := by
        cases hw0 : Memory.writeAux b.memory.data (addr - 0x80000000) v size 0 with
        | none => rfl
        | some d2 =>
          exfalso
          apply hspan
          have := (Memory.writeAux_some_iff (addr - 0x80000000) v size b.memory.data 0).mp
            ⟨d2, hw0⟩
          intro j hj
          have := this j hj
          omega
      simp [Bus.read, Bus.write, hb, hnot, hr, Memory.write, hw2, hspan]
    | some w =>
      have hspan : ∀ j, j < size → addr - 0x80000000 + j < b.memory.data.length := by
        have := (Memory.readAux_some_iff b.memory.data (addr - 0x80000000) size 0 0).mp ⟨w, hr⟩
        intro j hj
        have := this j hj
        omega
      obtain ⟨d2, hw2⟩ :
          ∃ d2, Memory.writeAux b.memory.data (addr - 0x80000000) v size 0 = some d2 :=
        (Memory.writeAux_some_iff (addr - 0x80000000) v size b.memory.data 0).mpr
          (fun j hj => by have := hspan j hj; omega)
      simp [Bus.read, Bus.write, hb, hnot, hr, Memory.write, hw2, hspan]
      exact hspan
  · have hlt : addr < 0x80000000 := Nat.not_le.mp hb
    simp [Bus.read, Bus.write, hb, hlt]

/-- Fixture: a Bus over a 4-byte memory. -/
def busFour : Bus := ⟨⟨[0, 0, 0, 0]⟩⟩

/-- C2 counterexample: a 4-byte read at 0x8000_0002 over a 4-byte memory
has its address at or above the base but its span overrunning the
buffer; the Bus panics on the Memory index instead of returning
Err(InvalidMemoryAccess(addr)) as the claim states. -/
theorem c2_span_overrun_panics :
    Bus.read busFour 0x80000002 4 = .panic ∧
    Bus.write busFour 0x80000002 7 4 = .panic ∧
    Bus.read busFour 0x80000002 4 ≠ .err (.InvalidMemoryAccess 0x80000002) := by
  refine ⟨by decide, by decide, by decide⟩

/-- Register writes never change the pc. -/
@[simp] theorem pc_write_register (c : Cpu) (i v : Nat) :
    (c.write_register i v).pc = c.pc := by
  unfold Cpu.write_register
  split <;> rfl

/-- Reads see through a pc update. -/
@[simp] theorem read_register_with_pc (c : Cpu) (p x : Nat) :
    Cpu.read_register { c with pc := p } x = c.read_register x := rfl

/-- The branch target computed from the already-advanced pc: subtracting
the 4 added by fetch recovers the pc of the executing instruction. -/
@[simp] theorem add64_sub64_add64 (p x : Nat) :
    add64 (sub64 (add64 p 4) 4) x = add64 p x := by
  unfold add64 sub64
  omega

/-- Follows the spec (PC update rule): the pc a successful cycle starting
in state c with decoded instruction i must end at - the branch target
pc + offset for a taken branch, pc + offset for JAL, (rs1 + offset) with
the low bit cleared for JALR, and pc + 4 (the parcel width of this
pipeline, which fetches only 32-bit parcels) in every other case. -/
def nextPcSpec (c : Cpu) (i : Instruction) : Nat :=
  match i with
  | .BEQ rs1 rs2 offset =>
    if c.read_register rs1 = c.read_register rs2 then add64 c.pc (u64ofInt offset)
    else add64 c.pc 4
  | .BNE rs1 rs2 offset =>
    if c.read_register rs1 ≠ c.read_register rs2 then add64 c.pc (u64ofInt offset)
    else add64 c.pc 4
  | .BLT rs1 rs2 offset =>
    if i64ofNat (c.read_register rs1) < i64ofNat (c.read_register rs2) then
      add64 c.pc (u64ofInt offset)
    else add64 c.pc 4
  | .BGE rs1 rs2 offset =>
    if i64ofNat (c.read_register rs1) ≥ i64ofNat (c.read_register rs2) then
      add64 c.pc (u64ofInt offset)
    else add64 c.pc 4
  | .BLTU rs1 rs2 offset =>
    if c.read_register rs1 < c.read_register rs2 then add64 c.pc (u64ofInt offset)
    else add64 c.pc 4
  | .BGEU rs1 rs2 offset =>
    if c.read_register rs1 ≥ c.read_register rs2 then add64 c.pc (u64ofInt offset)
    else add64 c.pc 4
  | .JAL _ offset => add64 c.pc (u64ofInt offset)
  | .JALR _ rs1 offset =>
    (add64 (c.read_register rs1) (u64ofInt offset)) &&& 0xfffffffffffffffe
  | _ => add64 c.pc 4

/-- C8: after a successful fetch-decode-execute cycle from state c whose
parcel decoded to i, the final pc is the one the PC update rule
prescribes: pc plus the parcel width (4 in this pipeline) unless i is a
taken branch, JAL or JALR, in which case it is the control-transfer
target computed from the starting pc (or from rs1 for JALR). -/
theorem c8_pc_update_rule (c : Cpu) (parcel : Nat) (i : Instruction) (c2 : Cpu)
    (h1 : c.bus.read c.pc 4 = .ok parcel)
    (h2 : Cpu.decode parcel = .ok i)
    (h3 : Cpu.cycle c = .ok c2) :
    c2.pc = nextPcSpec c i := by
  have hex : Cpu.execute { c with pc := add64 c.pc 4 } i = .ok c2 := by
    simpa only [Cpu.cycle, Cpu.fetch, h1, h2] using h3
  clear h1 h2 h3
  cases i <;>
    simp only [Cpu.execute] at hex <;>
    (try split at hex) <;>
    (try split at hex) <;>
    cases hex <;>
    (try simp_all [nextPcSpec]) <;>
    (try split) <;>
    omega

/-- Fixture: a hart over a memory holding the 32-bit parcel 0x13
(ADDI x0, x0, 0). -/
def cpuNop : Cpu := Cpu.new ⟨⟨[0x13, 0, 0, 0]⟩⟩

/-- Fixture: the state after one cycle of cpuNop. -/
def cpuNop2 : Cpu := { cpuNop with pc := 0x80000004 }

/-- C8 witness: the theorem applied to a concrete cycle over
ADDI x0, x0, 0, whose final pc is the reset vector plus 4. -/
theorem c8_pc_update_rule_witness :
    cpuNop2.pc = nextPcSpec cpuNop (.ADDI 0 0 0) :=
  c8_pc_update_rule cpuNop 0x13 (.ADDI 0 0 0) cpuNop2 rfl rfl rfl

end RiscvEmu
